import Mathlib

/-!
Verification of the binary-operator subsystem of the VRL expression
language (src/lib/vrl/compiler/src/expression/op.rs): construction-time
validation (`Op.new`), single-record evaluation (`Op.resolve`), vectorized
batch evaluation (`Op.resolveBatch`), static type inference (`Op.typeDef`),
and the diagnostic payloads of the construction errors.

The `Op` node itself is translated from the source.  Its collaborators
(the dynamic `Value` operations, the `Kind`/`TypeDef` algebra, the
polymorphic expression capability and the batch container) live outside
the provided sources; they are modelled from the specification, and each
such definition is marked with a doc comment starting
`Modelled from the spec:`.
-/

set_option maxHeartbeats 1000000

/-- Source span of a syntax node, as carried by diagnostics. -/
structure Span where
  lo : Nat
  hi : Nat
  deriving DecidableEq, Repr

/-- Modelled from the spec: a parser node pairing a value with its source
span; `Node::take` yields the pair. -/
structure Node (α : Type) where
  span : Span
  val : α

/-- Modelled from the spec: a `Kind` is a set over the value categories
(Null, Boolean, Integer, Float, Bytes, Object, Array, Timestamp, Regex),
represented by its characteristic flags.  Union and subset queries are
pure set operations. -/
structure Kind where
  hasNull : Bool
  hasBoolean : Bool
  hasInteger : Bool
  hasFloat : Bool
  hasBytes : Bool
  hasObject : Bool
  hasArray : Bool
  hasTimestamp : Bool
  hasRegex : Bool
  deriving DecidableEq, Repr

namespace Kind

/-- Modelled from the spec: the empty kind set, used to build singletons. -/
def empty : Kind := ⟨false, false, false, false, false, false, false, false, false⟩

/-- Modelled from the spec: the singleton Null kind (`K::null()`). -/
def null : Kind := { empty with hasNull := true }

/-- Modelled from the spec: the singleton Boolean kind (`K::boolean()`). -/
def boolean : Kind := { empty with hasBoolean := true }

/-- Modelled from the spec: the singleton Integer kind (`K::integer()`). -/
def integer : Kind := { empty with hasInteger := true }

/-- Modelled from the spec: the singleton Float kind (`K::float()`). -/
def float : Kind := { empty with hasFloat := true }

/-- Modelled from the spec: the singleton Bytes kind (`K::bytes()`). -/
def bytes : Kind := { empty with hasBytes := true }

/-- Modelled from the spec: the singleton Object kind (`K::object()`). -/
def object : Kind := { empty with hasObject := true }

/-- Modelled from the spec: set union of two kind sets. -/
def union (a b : Kind) : Kind :=
  ⟨a.hasNull || b.hasNull, a.hasBoolean || b.hasBoolean, a.hasInteger || b.hasInteger,
   a.hasFloat || b.hasFloat, a.hasBytes || b.hasBytes, a.hasObject || b.hasObject,
   a.hasArray || b.hasArray, a.hasTimestamp || b.hasTimestamp, a.hasRegex || b.hasRegex⟩

/-- Modelled from the spec: subset query between kind sets. -/
def subset (a b : Kind) : Bool :=
  (!a.hasNull || b.hasNull) && (!a.hasBoolean || b.hasBoolean) &&
  (!a.hasInteger || b.hasInteger) && (!a.hasFloat || b.hasFloat) &&
  (!a.hasBytes || b.hasBytes) && (!a.hasObject || b.hasObject) &&
  (!a.hasArray || b.hasArray) && (!a.hasTimestamp || b.hasTimestamp) &&
  (!a.hasRegex || b.hasRegex)

/-- Modelled from the spec: `K::..().or_boolean()` adds Boolean to a kind set. -/
def or_boolean (a : Kind) : Kind := { a with hasBoolean := true }

/-- Modelled from the spec: `K::..().or_float()` adds Float to a kind set. -/
def or_float (a : Kind) : Kind := { a with hasFloat := true }

/-- Modelled from the spec: `K::..().or_integer()` adds Integer to a kind set. -/
def or_integer (a : Kind) : Kind := { a with hasInteger := true }

/-- Modelled from the spec: `K::..().or_null()` adds Null to a kind set. -/
def or_null (a : Kind) : Kind := { a with hasNull := true }

/-- Modelled from the spec: `remove_null` drops Null from the kind set. -/
def without_null (a : Kind) : Kind := { a with hasNull := false }

end Kind

/-- Modelled from the spec: `TypeDef` is a set of possible value kinds plus
a fallibility flag. -/
structure TypeDef where
  kind : Kind
  fallible : Bool
  deriving DecidableEq, Repr

namespace TypeDef

/-- Modelled from the spec: `merge_deep` takes the union of kinds; the
result is fallible iff either input is. -/
def merge_deep (a b : TypeDef) : TypeDef := ⟨a.kind.union b.kind, a.fallible || b.fallible⟩

/-- Modelled from the spec: `merge_overwrite` is the structural override
used only for Merge; at the granularity of kind sets (no per-field
shapes are represented here) it unions the kinds and ORs fallibility. -/
def merge_overwrite (a b : TypeDef) : TypeDef := ⟨a.kind.union b.kind, a.fallible || b.fallible⟩

/-- Modelled from the spec: `fallible_unless(allowed)` sets fallible=true
unless the kind set is contained in `allowed`. -/
def fallible_unless (a : TypeDef) (allowed : Kind) : TypeDef :=
  { a with fallible := a.fallible || !(a.kind.subset allowed) }

/-- Modelled from the spec: `with_kind` replaces the kind set, preserving
fallibility. -/
def with_kind (a : TypeDef) (k : Kind) : TypeDef := { a with kind := k }

/-- Modelled from the spec: `remove_null` drops Null from the kind set. -/
def remove_null (a : TypeDef) : TypeDef := { a with kind := a.kind.without_null }

/-- Modelled from the spec: `infallible()` clears the fallibility flag. -/
def infallible (a : TypeDef) : TypeDef := { a with fallible := false }

/-- Modelled from the spec: `fallible()` sets the fallibility flag. -/
def fallible' (a : TypeDef) : TypeDef := { a with fallible := true }

/-- Modelled from the spec: `TypeDef::float()`, infallible. -/
def float : TypeDef := ⟨Kind.float, false⟩

/-- Modelled from the spec: `TypeDef::integer()`, infallible. -/
def integer : TypeDef := ⟨Kind.integer, false⟩

/-- Modelled from the spec: `add_integer` adds Integer to the kind set. -/
def add_integer (a : TypeDef) : TypeDef := { a with kind := a.kind.or_integer }

/-- Modelled from the spec: `is_infallible` tests the fallibility flag. -/
def is_infallible (a : TypeDef) : Bool := !a.fallible

/-- Modelled from the spec: `is_null` holds when the kind set is exactly
Null (the spec glosses the code's `is_null()` as "lhs is exactly Null"). -/
def is_null (a : TypeDef) : Bool := a.kind = Kind.null

/-- Modelled from the spec: `is_boolean` holds when the kind set is exactly
Boolean. -/
def is_boolean (a : TypeDef) : Bool := a.kind = Kind.boolean

/-- Modelled from the spec: `is_integer` holds when the kind set is exactly
Integer. -/
def is_integer (a : TypeDef) : Bool := a.kind = Kind.integer

/-- Modelled from the spec: `is_float` holds when the kind set is exactly
Float. -/
def is_float (a : TypeDef) : Bool := a.kind = Kind.float

/-- Modelled from the spec: `is_bytes` holds when the kind set is exactly
Bytes. -/
def is_bytes (a : TypeDef) : Bool := a.kind = Kind.bytes

/-- Modelled from the spec: `is_object` holds when the kind set is exactly
Object. -/
def is_object (a : TypeDef) : Bool := a.kind = Kind.object

/-- Modelled from the spec: `is_superset(k)` holds when the kind set
contains `k`. -/
def is_superset (a : TypeDef) (k : Kind) : Bool := k.subset a.kind

end TypeDef

/-- Modelled from the spec: the dynamic tagged value.  The payload of a
float is abstracted to the single observable the core consults, namely
whether `f64::is_normal` holds for it; objects are association lists
whose field payloads are abstracted to opaque tokens (no claim inspects
the inside of an object). -/
inductive Value where
  | null : Value
  | boolean (b : Bool) : Value
  | integer (i : Int) : Value
  | float (isNormal : Bool) : Value
  | bytes (s : String) : Value
  | object (fields : List (String × Nat)) : Value
  deriving DecidableEq, Repr

/-- Runtime evaluation result of one record: a value or a per-record
error.  The error payload is abstracted to a message string. -/
abbrev Resolved := Except String Value

instance : DecidableEq Resolved := fun a b =>
  match a, b with
  | .ok x, .ok y =>
      if h : x = y then isTrue (by rw [h]) else isFalse (fun hh => h (Except.ok.inj hh))
  | .ok _, .error _ => isFalse (fun hh => Except.noConfusion hh)
  | .error _, .ok _ => isFalse (fun hh => Except.noConfusion hh)
  | .error x, .error y =>
      if h : x = y then isTrue (by rw [h]) else isFalse (fun hh => h (Except.error.inj hh))

/-- True when a resolution result is an error (`Result::is_err`). -/
def isErr (r : Resolved) : Bool :=
  match r with
  | .error _ => true
  | .ok _ => false

/-- Value of a successful resolution; the source reaches this only on
results already known not to be errors (`expect("is not an error")`),
so the error branch returns an arbitrary default. -/
def getOk (r : Resolved) : Value :=
  match r with
  | .ok v => v
  | .error _ => Value.null

namespace Value

/-- Modelled from the spec: the infallible loose-equality test
(`eq_lossy`), abstracted to structural equality. -/
def eqLossy (a b : Value) : Bool := decide (a = b)

/-- Modelled from the spec: boolean coercion used by the logical
combinators; Null coerces to false, other non-boolean values fail. -/
def asBool : Value → Option Bool
  | .null => some false
  | .boolean b => some b
  | _ => none

/-- Modelled from the spec: `try_and` returns the boolean AND, failing if
coercion to boolean fails on either side. -/
def tryAnd (l r : Value) : Resolved :=
  match l.asBool, r.asBool with
  | some a, some b => .ok (.boolean (a && b))
  | _, _ => .error ("and: boolean coercion failed")

/-- Modelled from the spec: `try_or`'s fallback test; the lhs value falls
back to the rhs exactly when it is Null or boolean false. -/
def isNullOrFalse : Value → Bool
  | .null => true
  | .boolean false => true
  | _ => false

/-- Modelled from the spec: fallible multiplication; integer products,
bytes repetition by an integer, float payloads abstracted. -/
def tryMul (l r : Value) : Resolved :=
  match l, r with
  | .integer a, .integer b => .ok (.integer (a * b))
  | .bytes s, .integer n => .ok (.bytes (String.join (List.replicate n.toNat s)))
  | .integer n, .bytes s => .ok (.bytes (String.join (List.replicate n.toNat s)))
  | .float _, .float _ => .ok (.float true)
  | .integer _, .float _ => .ok (.float true)
  | .float _, .integer _ => .ok (.float true)
  | _, _ => .error ("mul: unsupported operand types")

/-- Modelled from the spec: fallible division; fails on a zero divisor. -/
def tryDiv (l r : Value) : Resolved :=
  match l, r with
  | .integer a, .integer b =>
      if b = 0 then .error ("division by zero") else .ok (.float (decide (a ≠ 0)))
  | .float _, .integer b =>
      if b = 0 then .error ("division by zero") else .ok (.float true)
  | .integer _, .float n => if n then .ok (.float true) else .error ("division by zero")
  | .float _, .float n => if n then .ok (.float true) else .error ("division by zero")
  | _, _ => .error ("div: unsupported operand types")

/-- Modelled from the spec: fallible addition; integer sums, bytes
concatenation (with Null treated as the empty string), float payloads
abstracted. -/
def tryAdd (l r : Value) : Resolved :=
  match l, r with
  | .integer a, .integer b => .ok (.integer (a + b))
  | .bytes s, .bytes t => .ok (.bytes (s ++ t))
  | .bytes s, .null => .ok (.bytes s)
  | .null, .bytes t => .ok (.bytes t)
  | .float _, .float _ => .ok (.float true)
  | .integer _, .float _ => .ok (.float true)
  | .float _, .integer _ => .ok (.float true)
  | _, _ => .error ("add: unsupported operand types")

/-- Modelled from the spec: fallible subtraction. -/
def trySub (l r : Value) : Resolved :=
  match l, r with
  | .integer a, .integer b => .ok (.integer (a - b))
  | .float _, .float _ => .ok (.float true)
  | .integer _, .float _ => .ok (.float true)
  | .float _, .integer _ => .ok (.float true)
  | _, _ => .error ("sub: unsupported operand types")

/-- Modelled from the spec: fallible remainder; fails on a zero divisor. -/
def tryRem (l r : Value) : Resolved :=
  match l, r with
  | .integer a, .integer b =>
      if b = 0 then .error ("remainder by zero") else .ok (.integer (Int.tmod a b))
  | .float _, .float n => if n then .ok (.float true) else .error ("remainder by zero")
  | .integer _, .float n => if n then .ok (.float true) else .error ("remainder by zero")
  | .float _, .integer b =>
      if b = 0 then .error ("remainder by zero") else .ok (.float true)
  | _, _ => .error ("rem: unsupported operand types")

/-- Modelled from the spec: fallible ordered comparison, shared shape for
the four comparison operators, parameterised by the integer and string
orderings. -/
def tryCmp (intCmp : Int → Int → Bool) (strCmp : String → String → Bool)
    (l r : Value) : Resolved :=
  match l, r with
  | .integer a, .integer b => .ok (.boolean (intCmp a b))
  | .bytes a, .bytes b => .ok (.boolean (strCmp a b))
  | _, _ => .error ("cmp: unsupported operand types")

/-- Modelled from the spec: `try_gt`. -/
def tryGt (l r : Value) : Resolved :=
  tryCmp (fun a b => decide (a > b)) (fun a b => decide (a > b)) l r

/-- Modelled from the spec: `try_ge`. -/
def tryGe (l r : Value) : Resolved :=
  tryCmp (fun a b => decide (a ≥ b)) (fun a b => decide (a ≥ b)) l r

/-- Modelled from the spec: `try_lt`. -/
def tryLt (l r : Value) : Resolved :=
  tryCmp (fun a b => decide (a < b)) (fun a b => decide (a < b)) l r

/-- Modelled from the spec: `try_le`. -/
def tryLe (l r : Value) : Resolved :=
  tryCmp (fun a b => decide (a ≤ b)) (fun a b => decide (a ≤ b)) l r

/-- Modelled from the spec: structural merge of two objects; the rhs
fields take precedence, other operand types fail. -/
def tryMerge (l r : Value) : Resolved :=
  match l, r with
  | .object a, .object b => .ok (.object (a ++ b))
  | _, _ => .error ("merge: unsupported operand types")

end Value

/-- The closed set of binary opcodes (`ast::Opcode`). -/
inductive Opcode where
  | mul | div | add | sub | rem
  | eq | ne | lt | le | gt | ge
  | and | or
  | err
  | merge
  deriving DecidableEq, Repr

/-- True for the six comparison opcodes, the set used by the
chained-comparison check in `Op::new`. -/
def Opcode.isComparison : Opcode → Bool
  | .eq | .ne | .lt | .le | .gt | .ge => true
  | _ => false

/-- True for the opcodes `resolve_batch` handles record-by-record instead
of through the partition/recombine protocol. -/
def Opcode.isShortCircuit : Opcode → Bool
  | .err | .or | .and => true
  | _ => false

/-- Modelled from the spec: the expression capability a sub-expression
node offers the core.  A node is characterised by its single-record
evaluator (state-passing over the record context `σ`), its statically
inferred `TypeDef` under the construction-time environment, the
compile-time-literal probe `as_value`, and, when the node is itself a
binary-operator node, its opcode (the only shape information `Op::new`
inspects). -/
structure Expr (σ : Type) where
  resolve : σ → Resolved × σ
  typeDef : TypeDef
  asValue : Option Value
  opOpcode : Option Opcode

/-- The binary-operator node: opcode plus exclusively owned lhs/rhs
sub-expressions. -/
structure Op (σ : Type) where
  lhs : Expr σ
  rhs : Expr σ
  opcode : Opcode

/-- Abstract payload of a wrapped sub-expression error
(`expression::Error`), exposing its diagnostic code, message, labels and
notes. -/
structure ExprError where
  code : Nat
  message : String
  labels : List (Bool × String × Span)
  notes : List (String × String)

/-- Construction-time error of `Op::new` (`op::Error`), with the wrapped
expression-error variant. -/
inductive Op.Error where
  | chainedComparison (span : Span) : Op.Error
  | unnecessaryCoalesce (lhsSpan rhsSpan opSpan : Span) : Op.Error
  | mergeNonObjects (lhsSpan rhsSpan : Option Span) : Op.Error
  | expr (e : ExprError) : Op.Error

/-- Construction and static validation (`Op::new`).  The static
environment is already folded into each node's `typeDef` field, so the
`state` parameter of the source is implicit here. -/
def Op.new (σ : Type) (lhs : Node (Expr σ)) (opcode : Node Opcode) (rhs : Node (Expr σ)) :
    Except Op.Error (Op σ) :=
  let opSpan := opcode.span
  let opc := opcode.val
  let lhsSpan := lhs.span
  let lhsE := lhs.val
  let lhsTypeDef := lhsE.typeDef
  let rhsSpan := rhs.span
  let rhsE := rhs.val
  if opc.isComparison then
    match lhsE.opOpcode with
    | some inner =>
        if inner.isComparison then .error (.chainedComparison opSpan)
        else .ok ⟨lhsE, rhsE, opc⟩
    | none => .ok ⟨lhsE, rhsE, opc⟩
  else if opc = .err then
    if lhsTypeDef.is_infallible then
      .error (.unnecessaryCoalesce lhsSpan rhsSpan opSpan)
    else .ok ⟨lhsE, rhsE, opc⟩
  else if opc = .merge then
    if lhsE.typeDef.is_object && rhsE.typeDef.is_object then .ok ⟨lhsE, rhsE, opc⟩
    else
      .error (.mergeNonObjects
        (if lhsE.typeDef.is_object then none else some lhsSpan)
        (if rhsE.typeDef.is_object then none else some rhsSpan))
  else .ok ⟨lhsE, rhsE, opc⟩

/-- The opcode-specific binary combinator applied by `resolve` (and, for
the rhs-ok partition, by `resolve_batch`) once both operands resolved;
one arm per non-short-circuit opcode, mirroring both match statements of
the source.  The short-circuit opcodes are `unreachable!` there. -/
def evalOpcode (op : Opcode) (lhs rhs : Value) : Resolved :=
  match op with
  | .mul => lhs.tryMul rhs
  | .div => lhs.tryDiv rhs
  | .add => lhs.tryAdd rhs
  | .sub => lhs.trySub rhs
  | .rem => lhs.tryRem rhs
  | .eq => .ok (.boolean (lhs.eqLossy rhs))
  | .ne => .ok (.boolean (!lhs.eqLossy rhs))
  | .gt => lhs.tryGt rhs
  | .ge => lhs.tryGe rhs
  | .lt => lhs.tryLt rhs
  | .le => lhs.tryLe rhs
  | .merge => lhs.tryMerge rhs
  | .and | .or | .err => .error ("unreachable")

/-- Shared non-short-circuit tail of `resolve` (source lines 103-121):
evaluate lhs then rhs, propagating either failure, then apply the
opcode combinator. -/
def Op.resolveTail (o : Op σ) (ctx : σ) : Resolved × σ :=
  match o.lhs.resolve ctx with
  | (.error e, s1) => (.error e, s1)
  | (.ok lv, s1) =>
      match o.rhs.resolve s1 with
      | (.error e, s2) => (.error e, s2)
      | (.ok rv, s2) => (evalOpcode o.opcode lv rv, s2)

/-- Single-record evaluation (`Op::resolve`): the three short-circuit
opcodes return early, every other opcode falls through to the shared
tail. -/
def Op.resolve (o : Op σ) (ctx : σ) : Resolved × σ :=
  match o.opcode with
  | .err =>
      match o.lhs.resolve ctx with
      | (.ok v, s1) => (.ok v, s1)
      | (.error _, s1) => o.rhs.resolve s1
  | .or =>
      match o.lhs.resolve ctx with
      | (.error e, s1) => (.error e, s1)
      | (.ok v, s1) => if v.isNullOrFalse then o.rhs.resolve s1 else (.ok v, s1)
  | .and =>
      match o.lhs.resolve ctx with
      | (.error e, s1) => (.error e, s1)
      | (.ok v, s1) =>
          match v with
          | .null => (.ok (.boolean false), s1)
          | .boolean false => (.ok (.boolean false), s1)
          | v =>
              match o.rhs.resolve s1 with
              | (.error e, s2) => (.error e, s2)
              | (.ok w, s2) => (v.tryAnd w, s2)
  | _ => o.resolveTail ctx

/-- Modelled from the spec: one execution slot of the batch container: a
pending per-record result, the record's context (target document and
per-record state, folded into one state value `σ`), and the slot's
original position in the batch, which the container's order-preserving
partition and re-merge operations key on. -/
structure Slot (σ : Type) where
  idx : Nat
  res : Resolved
  st : σ
  deriving Repr

instance (σ : Type) [DecidableEq σ] : DecidableEq (Slot σ) := fun a b =>
  if h1 : a.idx = b.idx then
    if h2 : a.res = b.res then
      if h3 : a.st = b.st then
        isTrue (by cases a; cases b; simp_all)
      else isFalse (fun hh => h3 (by rw [hh]))
    else isFalse (fun hh => h2 (by rw [hh]))
  else isFalse (fun hh => h1 (by rw [hh]))

/-- Modelled from the spec: insertion of a slot into an index-ordered
batch, the building block of the container's order-preserving merge. -/
def insertByIdx (x : Slot σ) : List (Slot σ) → List (Slot σ)
  | [] => [x]
  | y :: ys => if x.idx ≤ y.idx then x :: y :: ys else y :: insertByIdx x ys

/-- Modelled from the spec: the batch container's order-preserving
`merge`/`extend`: recombining two sub-batches restores original slot
order (each slot keeps its original index). -/
def mergeByIdx (xs ys : List (Slot σ)) : List (Slot σ) := xs.foldr insertByIdx ys

/-- Applies a single-record evaluator to a slot, writing the result and
the updated record context in place. -/
def runSlot (f : σ → Resolved × σ) (s : Slot σ) : Slot σ :=
  ⟨s.idx, (f s.st).1, (f s.st).2⟩

/-- Modelled from the spec: a sub-expression's batch evaluation, which by
the contract of the expression capability is result-equivalent,
slot-by-slot, to running its single-record evaluator on each record's
context independently. -/
def Expr.resolveBatch (e : Expr σ) (ctx : List (Slot σ)) : List (Slot σ) :=
  ctx.map (runSlot e.resolve)

/-- Shared non-short-circuit tail of `resolve_batch` (source lines
167-285): evaluate lhs across the batch, drain the lhs-failed slots,
cache the lhs values, evaluate rhs across the remaining sub-batch, drain
the rhs-failed slots, combine the rhs-ok slots with the opcode
combinator, and recombine the three partitions. -/
def Op.resolveBatchTail (o : Op σ) (ctx : List (Slot σ)) : List (Slot σ) :=
  let ctx1 := o.lhs.resolveBatch ctx
  let ctxLhsErr := ctx1.filter fun s => isErr s.res
  let ctxOk := ctx1.filter fun s => !isErr s.res
  let lhsVals := ctxOk.map fun s => s.res
  let ctxOk2 := o.rhs.resolveBatch ctxOk
  let zipped := ctxOk2.zip lhsVals
  let ctxRhsErr := (zipped.filter fun z => isErr z.1.res).map fun z => z.1
  let combined := (zipped.filter fun z => !isErr z.1.res).map fun z =>
    { z.1 with res := evalOpcode o.opcode (getOk z.2) (getOk z.1.res) }
  mergeByIdx (mergeByIdx combined ctxLhsErr) ctxRhsErr

/-- Batch evaluation (`Op::resolve_batch`): the three short-circuit
opcodes run the single-record semantics on each slot's own context;
every other opcode goes through the partition/recombine tail. -/
def Op.resolveBatch (o : Op σ) (ctx : List (Slot σ)) : List (Slot σ) :=
  match o.opcode with
  | .err =>
      ctx.map (runSlot fun s =>
        match o.lhs.resolve s with
        | (.ok v, s1) => (.ok v, s1)
        | (.error _, s1) => o.rhs.resolve s1)
  | .or =>
      ctx.map (runSlot fun s =>
        match o.lhs.resolve s with
        | (.error e, s1) => (.error e, s1)
        | (.ok v, s1) => if v.isNullOrFalse then o.rhs.resolve s1 else (.ok v, s1))
  | .and =>
      ctx.map (runSlot fun s =>
        match o.lhs.resolve s with
        | (.error e, s1) => (.error e, s1)
        | (.ok v, s1) =>
            match v with
            | .null => (.ok (.boolean false), s1)
            | .boolean false => (.ok (.boolean false), s1)
            | v =>
                match o.rhs.resolve s1 with
                | (.error e, s2) => (.error e, s2)
                | (.ok w, s2) => (v.tryAnd w, s2))
  | _ => o.resolveBatchTail ctx

/-- Builds the initial batch for a list of record contexts: slot `i`
holds record `i`'s context, indices counted from `start`. -/
def initSlots (start : Nat) : List σ → List (Slot σ)
  | [] => []
  | st :: rest => ⟨start, .ok .null, st⟩ :: initSlots (start + 1) rest

/-- Static type inference (`Op::type_def`), one arm per opcode group; the
guard order inside each arm mirrors the order the source's match arms
are tried in. -/
def Op.typeDef (o : Op σ) : TypeDef :=
  let lhs_def := o.lhs.typeDef
  let rhs_def := o.rhs.typeDef
  match o.opcode with
  | .err =>
      if rhs_def.is_infallible then (lhs_def.merge_deep rhs_def).infallible
      else lhs_def.merge_deep rhs_def
  | .or =>
      if lhs_def.is_null then rhs_def
      else if !(lhs_def.is_superset Kind.null || lhs_def.is_superset Kind.boolean) then lhs_def
      else if !lhs_def.is_boolean then (lhs_def.remove_null).merge_deep rhs_def
      else lhs_def.merge_deep rhs_def
  | .merge => lhs_def.merge_overwrite rhs_def
  | .and =>
      if lhs_def.is_null then
        (rhs_def.fallible_unless (Kind.null.or_boolean)).with_kind Kind.boolean
      else
        ((lhs_def.fallible_unless (Kind.null.or_boolean)).merge_deep
          (rhs_def.fallible_unless (Kind.null.or_boolean))).with_kind Kind.boolean
  | .eq | .ne => (lhs_def.merge_deep rhs_def).with_kind Kind.boolean
  | .gt | .ge | .lt | .le =>
      if lhs_def.is_bytes && rhs_def.is_bytes then
        (lhs_def.merge_deep rhs_def).with_kind Kind.boolean
      else
        ((lhs_def.fallible_unless (Kind.integer.or_float)).merge_deep
          (rhs_def.fallible_unless (Kind.integer.or_float))).with_kind Kind.boolean
  | .div =>
      let td := TypeDef.float
      match o.rhs.asValue with
      | some value =>
          if lhs_def.is_float || lhs_def.is_integer then
            match value with
            | .float v => if v then td.infallible else td.fallible'
            | .integer v => if v ≠ 0 then td.infallible else td.fallible'
            | _ => td.fallible'
          else td.fallible'
      | none => td.fallible'
  | .rem =>
      match o.rhs.asValue with
      | some value =>
          if lhs_def.is_float || lhs_def.is_integer then
            match value with
            | .float v => if v then TypeDef.float.infallible else TypeDef.float.fallible'
            | .integer v =>
                if v ≠ 0 then TypeDef.integer.infallible else TypeDef.integer.fallible'
            | _ => TypeDef.float.add_integer.fallible'
          else TypeDef.float.add_integer.fallible'
      | none => TypeDef.float.add_integer.fallible'
  | .add =>
      if lhs_def.is_bytes || rhs_def.is_bytes then
        ((lhs_def.fallible_unless (Kind.bytes.or_null)).merge_deep
          (rhs_def.fallible_unless (Kind.bytes.or_null))).with_kind Kind.bytes
      else if lhs_def.is_float || rhs_def.is_float then
        ((lhs_def.fallible_unless (Kind.integer.or_float)).merge_deep
          (rhs_def.fallible_unless (Kind.integer.or_float))).with_kind Kind.float
      else if lhs_def.is_integer && rhs_def.is_integer then
        (lhs_def.merge_deep rhs_def).with_kind Kind.integer
      else
        ((lhs_def.merge_deep rhs_def).fallible').with_kind (Kind.bytes.or_integer.or_float)
  | .sub =>
      if lhs_def.is_float || rhs_def.is_float then
        ((lhs_def.fallible_unless (Kind.integer.or_float)).merge_deep
          (rhs_def.fallible_unless (Kind.integer.or_float))).with_kind Kind.float
      else if lhs_def.is_integer && rhs_def.is_integer then
        (lhs_def.merge_deep rhs_def).with_kind Kind.integer
      else
        ((lhs_def.merge_deep rhs_def).fallible').with_kind (Kind.integer.or_float)
  | .mul =>
      if lhs_def.is_float || rhs_def.is_float then
        ((lhs_def.fallible_unless (Kind.integer.or_float)).merge_deep
          (rhs_def.fallible_unless (Kind.integer.or_float))).with_kind Kind.float
      else if lhs_def.is_integer && rhs_def.is_integer then
        (lhs_def.merge_deep rhs_def).with_kind Kind.integer
      else if lhs_def.is_bytes && rhs_def.is_integer then
        (lhs_def.merge_deep rhs_def).with_kind Kind.bytes
      else if lhs_def.is_integer && rhs_def.is_bytes then
        (lhs_def.merge_deep rhs_def).with_kind Kind.bytes
      else
        ((lhs_def.merge_deep rhs_def).fallible').with_kind (Kind.bytes.or_integer.or_float)

/-- Modelled from the spec: a diagnostic label, primary or contextual,
with a message and the span it points at. -/
def labelPrimary (m : String) (s : Span) : Bool × String × Span := (true, m, s)

/-- Modelled from the spec: a contextual diagnostic label. -/
def labelContext (m : String) (s : Span) : Bool × String × Span := (false, m, s)

/-- Modelled from the spec: `Urls::expression_docs_url`, the reference
link attached to a see-docs note. -/
def expressionDocsUrl (anchor : String) : String := "https://vrl.dev/expressions/" ++ anchor

/-- Diagnostic code of a construction error (`DiagnosticMessage::code`). -/
def Op.Error.code : Op.Error → Nat
  | .chainedComparison _ => 650
  | .unnecessaryCoalesce _ _ _ => 651
  | .mergeNonObjects _ _ => 652
  | .expr e => e.code

/-- Diagnostic message of a construction error
(`DiagnosticMessage::message`); the first three strings are the
`thiserror` display strings of the variants. -/
def Op.Error.message : Op.Error → String
  | .chainedComparison _ => "comparison operators can\x27t be chained together"
  | .unnecessaryCoalesce _ _ _ => "unnecessary error coalescing operation"
  | .mergeNonObjects _ _ => "only objects can be merged"
  | .expr e => e.message

/-- Diagnostic labels of a construction error
(`DiagnosticMessage::labels`). -/
def Op.Error.labels : Op.Error → List (Bool × String × Span)
  | .chainedComparison span => [labelPrimary ("") span]
  | .unnecessaryCoalesce lhsSpan rhsSpan opSpan =>
      [labelPrimary ("this expression can\x27t fail") lhsSpan,
       labelContext ("this expression never resolves") rhsSpan,
       labelContext ("remove this error coalescing operation") opSpan]
  | .mergeNonObjects lhsSpan rhsSpan =>
      (match lhsSpan with
       | some s => [labelPrimary ("this expression must resolve to an object") s]
       | none => []) ++
      (match rhsSpan with
       | some s => [labelPrimary ("this expression must resolve to an object") s]
       | none => [])
  | .expr e => e.labels

/-- Diagnostic notes of a construction error
(`DiagnosticMessage::notes`). -/
def Op.Error.notes : Op.Error → List (String × String)
  | .chainedComparison _ => [("comparisons", expressionDocsUrl ("#comparison"))]
  | .expr e => e.notes
  | _ => []

theorem runSlot_idx (f : σ → Resolved × σ) (s : Slot σ) : (runSlot f s).idx = s.idx := rfl

theorem mem_insertByIdx {σ : Type} {x z : Slot σ} {l : List (Slot σ)}
    (hz : z ∈ insertByIdx x l) : z = x ∨ z ∈ l := by
  induction l with
  | nil => simpa [insertByIdx] using hz
  | cons y ys ih =>
      by_cases hle : x.idx ≤ y.idx
      · simp only [insertByIdx, if_pos hle] at hz
        rcases List.mem_cons.mp hz with h | h
        · exact Or.inl h
        · exact Or.inr h
      · simp only [insertByIdx, if_neg hle] at hz
        rcases List.mem_cons.mp hz with h | h
        · exact Or.inr (List.mem_cons.mpr (Or.inl h))
        · rcases ih h with h2 | h2
          · exact Or.inl h2
          · exact Or.inr (List.mem_cons.mpr (Or.inr h2))

theorem mem_mergeByIdx {σ : Type} {z : Slot σ} :
    ∀ {xs ys : List (Slot σ)}, z ∈ mergeByIdx xs ys → z ∈ xs ∨ z ∈ ys := by
  intro xs
  induction xs with
  | nil => intro ys h; exact Or.inr h
  | cons a as ih =>
      intro ys h
      have h' : z ∈ insertByIdx a (mergeByIdx as ys) := h
      rcases mem_insertByIdx h' with h1 | h1
      · exact Or.inl (List.mem_cons.mpr (Or.inl h1))
      · rcases ih h1 with h2 | h2
        · exact Or.inl (List.mem_cons.mpr (Or.inr h2))
        · exact Or.inr h2

theorem insertByIdx_eq_cons {σ : Type} {x : Slot σ} {l : List (Slot σ)}
    (hx : ∀ y ∈ l, x.idx < y.idx) : insertByIdx x l = x :: l := by
  cases l with
  | nil => rfl
  | cons y ys =>
      have hlt := hx y (List.mem_cons_self y ys)
      simp [insertByIdx, Nat.le_of_lt hlt]

theorem mergeByIdx_cons_left {σ : Type} {x : Slot σ} {xs ys : List (Slot σ)}
    (h1 : ∀ y ∈ xs, x.idx < y.idx) (h2 : ∀ y ∈ ys, x.idx < y.idx) :
    mergeByIdx (x :: xs) ys = x :: mergeByIdx xs ys := by
  show insertByIdx x (mergeByIdx xs ys) = _
  apply insertByIdx_eq_cons
  intro y hy
  rcases mem_mergeByIdx hy with h | h
  · exact h1 y h
  · exact h2 y h

theorem mergeByIdx_cons_right {σ : Type} {y : Slot σ} {xs ys : List (Slot σ)}
    (h : ∀ z ∈ xs, y.idx < z.idx) :
    mergeByIdx xs (y :: ys) = y :: mergeByIdx xs ys := by
  induction xs with
  | nil => rfl
  | cons a as ih =>
      have hy : y.idx < a.idx := h a (List.mem_cons_self a as)
      show insertByIdx a (mergeByIdx as (y :: ys)) = y :: insertByIdx a (mergeByIdx as ys)
      rw [ih (fun z hz => h z (List.mem_cons.mpr (Or.inr hz)))]
      simp [insertByIdx, Nat.not_le.mpr hy]

theorem filter_map_comm {α β : Type} (f : α → β) (p : β → Bool) (l : List α) :
    (l.map f).filter p = (l.filter fun a => p (f a)).map f := by
  induction l with
  | nil => rfl
  | cons a t ih => cases h : p (f a) <;> simp [List.filter_cons, h, ih]

theorem filter_filter_and {α : Type} (p q : α → Bool) (l : List α) :
    (l.filter p).filter q = l.filter fun a => p a && q a := by
  induction l with
  | nil => rfl
  | cons a t ih => cases hp : p a <;> cases hq : q a <;> simp [List.filter_cons, hp, hq, ih]

theorem filter_all_true {α : Type} (p : α → Bool) (l : List α) (h : ∀ a ∈ l, p a = true) :
    l.filter p = l := by
  induction l with
  | nil => rfl
  | cons a t ih =>
      simp [List.filter_cons, h a (List.mem_cons_self a t),
        ih (fun b hb => h b (List.mem_cons.mpr (Or.inr hb)))]

theorem map_congr_mem {α β : Type} {f g : α → β} {l : List α}
    (h : ∀ a ∈ l, f a = g a) : l.map f = l.map g := by
  induction l with
  | nil => rfl
  | cons a t ih =>
      simp [h a (List.mem_cons_self a t), ih (fun b hb => h b (List.mem_cons.mpr (Or.inr hb)))]

theorem mergeByIdx_filter {σ : Type} (p q : Slot σ → Bool) (g h : Slot σ → Slot σ)
    (hg : ∀ s, (g s).idx = s.idx) (hh : ∀ s, (h s).idx = s.idx)
    (hpq : ∀ s, p s = true → q s = false) :
    ∀ (l : List (Slot σ)), l.Pairwise (fun a b => a.idx < b.idx) →
      mergeByIdx ((l.filter p).map g) ((l.filter q).map h)
        = (l.filter fun s => p s || q s).map fun s => if p s then g s else h s := by
  intro l hl
  induction l with
  | nil => rfl
  | cons s rest ih =>
      rw [List.pairwise_cons] at hl
      obtain ⟨hs, hrest⟩ := hl
      cases hp : p s with
      | true =>
          have hq : q s = false := hpq s hp
          have hbound1 : ∀ y ∈ (rest.filter p).map g, (g s).idx < y.idx := by
            intro y hy
            rcases List.mem_map.mp hy with ⟨t, ht, rfl⟩
            rw [hg, hg]
            exact hs t (List.mem_of_mem_filter ht)
          have hbound2 : ∀ y ∈ (rest.filter q).map h, (g s).idx < y.idx := by
            intro y hy
            rcases List.mem_map.mp hy with ⟨t, ht, rfl⟩
            rw [hg, hh]
            exact hs t (List.mem_of_mem_filter ht)
          have e1 : (s :: rest).filter p = s :: rest.filter p := by
            simp [List.filter_cons, hp]
          have e2 : (s :: rest).filter q = rest.filter q := by
            simp [List.filter_cons, hq]
          have e3 : (s :: rest).filter (fun s => p s || q s)
              = s :: rest.filter (fun s => p s || q s) := by
            simp [List.filter_cons, hp]
          rw [e1, e2, e3, List.map_cons, List.map_cons,
            mergeByIdx_cons_left hbound1 hbound2, ih hrest, if_pos hp]
      | false =>
          cases hq : q s with
          | true =>
              have hbound : ∀ z ∈ (rest.filter p).map g, (h s).idx < z.idx := by
                intro z hz
                rcases List.mem_map.mp hz with ⟨t, ht, rfl⟩
                rw [hh, hg]
                exact hs t (List.mem_of_mem_filter ht)
              have e1 : (s :: rest).filter p = rest.filter p := by
                simp [List.filter_cons, hp]
              have e2 : (s :: rest).filter q = s :: rest.filter q := by
                simp [List.filter_cons, hq]
              have e3 : (s :: rest).filter (fun s => p s || q s)
                  = s :: rest.filter (fun s => p s || q s) := by
                simp [List.filter_cons, hq]
              have hps : ¬ (p s = true) := by simp [hp]
              rw [e1, e2, e3, List.map_cons, List.map_cons,
                mergeByIdx_cons_right hbound, ih hrest, if_neg hps]
          | false =>
              have e1 : (s :: rest).filter p = rest.filter p := by
                simp [List.filter_cons, hp]
              have e2 : (s :: rest).filter q = rest.filter q := by
                simp [List.filter_cons, hq]
              have e3 : (s :: rest).filter (fun s => p s || q s)
                  = rest.filter (fun s => p s || q s) := by
                simp [List.filter_cons, hp, hq]
              rw [e1, e2, e3, ih hrest]

/-- Per-slot effect of the lhs batch pass of the partition protocol. -/
def lhsStep (o : Op σ) : Slot σ → Slot σ := runSlot o.lhs.resolve

/-- Per-slot effect of the rhs batch pass, applied to a slot that already
went through the lhs pass. -/
def rhsAfterLhs (o : Op σ) (s : Slot σ) : Slot σ := runSlot o.rhs.resolve (lhsStep o s)

/-- Per-slot combination step for a slot whose lhs and rhs both
resolved. -/
def combStep (o : Op σ) (s : Slot σ) : Slot σ :=
  { rhsAfterLhs o s with
    res := evalOpcode o.opcode (getOk (lhsStep o s).res) (getOk (rhsAfterLhs o s).res) }

theorem resolveBatchTail_decompose (o : Op σ) (ctx : List (Slot σ)) :
    o.resolveBatchTail ctx =
      mergeByIdx (mergeByIdx
        ((ctx.filter fun s => !isErr (lhsStep o s).res && !isErr (rhsAfterLhs o s).res).map
          (combStep o))
        ((ctx.filter fun s => isErr (lhsStep o s).res).map (lhsStep o)))
        ((ctx.filter fun s => !isErr (lhsStep o s).res && isErr (rhsAfterLhs o s).res).map
          (rhsAfterLhs o)) := by
  simp only [Op.resolveBatchTail, Expr.resolveBatch, filter_map_comm, List.map_map,
    List.zip_map', filter_filter_and, Function.comp, lhsStep, rhsAfterLhs, combStep]
  exact congr_arg₂ mergeByIdx
    (congr_arg₂ mergeByIdx (map_congr_mem fun a _ => rfl) rfl)
    (map_congr_mem fun a _ => rfl)

theorem resolveBatchTail_eq_map (o : Op σ) (ctx : List (Slot σ))
    (hctx : ctx.Pairwise fun a b => a.idx < b.idx) :
    o.resolveBatchTail ctx = ctx.map (runSlot o.resolveTail) := by
  rw [resolveBatchTail_decompose]
  rw [mergeByIdx_filter
    (fun s => !isErr (lhsStep o s).res && !isErr (rhsAfterLhs o s).res)
    (fun s => isErr (lhsStep o s).res)
    (combStep o) (lhsStep o)
    (fun s => rfl) (fun s => rfl)
    (fun s hcond => by
      revert hcond
      cases hA : isErr (lhsStep o s).res <;> cases hB : isErr (rhsAfterLhs o s).res <;>
        simp [hA, hB])
    ctx hctx]
  rw [mergeByIdx_filter
    (fun s => (!isErr (lhsStep o s).res && !isErr (rhsAfterLhs o s).res)
      || isErr (lhsStep o s).res)
    (fun s => !isErr (lhsStep o s).res && isErr (rhsAfterLhs o s).res)
    (fun s => if !isErr (lhsStep o s).res && !isErr (rhsAfterLhs o s).res
      then combStep o s else lhsStep o s)
    (rhsAfterLhs o)
    (fun s => by
      cases hc : (!isErr (lhsStep o s).res && !isErr (rhsAfterLhs o s).res) <;>
        simp only [hc, if_true, if_false] <;> rfl)
    (fun s => rfl)
    (fun s hcond => by
      revert hcond
      cases hA : isErr (lhsStep o s).res <;> cases hB : isErr (rhsAfterLhs o s).res <;>
        simp [hA, hB])
    ctx hctx]
  rw [filter_all_true _ ctx (fun s _ => by
    cases hA : isErr (lhsStep o s).res <;> cases hB : isErr (rhsAfterLhs o s).res <;>
      simp [hA, hB])]
  apply map_congr_mem
  intro s _
  rcases hF : o.lhs.resolve s.st with ⟨r1, t1⟩
  cases r1 with
  | error e =>
      simp [lhsStep, rhsAfterLhs, combStep, runSlot, hF, isErr, Op.resolveTail]
  | ok v =>
      rcases hG : o.rhs.resolve t1 with ⟨r2, t2⟩
      cases r2 with
      | error e =>
          simp [lhsStep, rhsAfterLhs, combStep, runSlot, hF, hG, isErr, Op.resolveTail]
      | ok w =>
          simp [lhsStep, rhsAfterLhs, combStep, runSlot, hF, hG, isErr, getOk, Op.resolveTail]

theorem resolveBatch_eq_map (o : Op σ) (ctx : List (Slot σ))
    (hctx : ctx.Pairwise fun a b => a.idx < b.idx) :
    o.resolveBatch ctx = ctx.map (runSlot o.resolve) := by
  cases hop : o.opcode
  all_goals
    first
    | (simp only [Op.resolveBatch, hop]
       rw [resolveBatchTail_eq_map o ctx hctx]
       exact map_congr_mem fun s _ => by simp only [runSlot, Op.resolve, hop])
    | (simp only [Op.resolveBatch, hop]
       exact map_congr_mem fun s _ => by simp only [runSlot, Op.resolve, hop])

theorem initSlots_idx_ge (start : Nat) (l : List σ) :
    ∀ s ∈ initSlots start l, start ≤ s.idx := by
  induction l generalizing start with
  | nil => intro s hs; cases hs
  | cons a t ih =>
      intro s hs
      rcases List.mem_cons.mp hs with rfl | hs
      · exact Nat.le_refl _
      · exact Nat.le_of_succ_le (ih (start + 1) s hs)

theorem initSlots_pairwise (start : Nat) (l : List σ) :
    (initSlots start l).Pairwise (fun a b => a.idx < b.idx) := by
  induction l generalizing start with
  | nil => exact List.Pairwise.nil
  | cons a t ih =>
      refine List.Pairwise.cons ?_ (ih (start + 1))
      intro s hs
      exact Nat.lt_of_lt_of_le (Nat.lt_succ_self start) (initSlots_idx_ge (start + 1) t s hs)

theorem initSlots_map_st (start : Nat) (l : List σ) :
    (initSlots start l).map Slot.st = l := by
  induction l generalizing start with
  | nil => rfl
  | cons a t ih => simp [initSlots, ih]

theorem initSlots_map_idx (start : Nat) (l : List σ) :
    (initSlots start l).map Slot.idx = List.range' start l.length := by
  induction l generalizing start with
  | nil => rfl
  | cons a t ih =>
      simp only [initSlots, List.map_cons, ih]
      rfl

/-- C1: for every opcode and every batch, `resolve_batch` produces at
every slot exactly the Result (and updated record context) that
single-record `resolve` would produce independently on that record; in
particular a batch of n copies of one record yields n identical results,
each equal to `resolve` of that record. -/
theorem c1_resolve_batch_refines_resolve (σ : Type) (o : Op σ) (states : List σ)
    (n : Nat) (r : σ) :
    o.resolveBatch (initSlots 0 states) = (initSlots 0 states).map (runSlot o.resolve)
    ∧ (o.resolveBatch (initSlots 0 (List.replicate n r))).map Slot.res
        = List.replicate n (o.resolve r).1 := by
  constructor
  · exact resolveBatch_eq_map o _ (initSlots_pairwise 0 states)
  · rw [resolveBatch_eq_map o _ (initSlots_pairwise 0 (List.replicate n r)), List.map_map]
    have aux : ∀ (k start : Nat),
        ((initSlots start (List.replicate k r)).map (Slot.res ∘ runSlot o.resolve))
          = List.replicate k (o.resolve r).1 := by
      intro k
      induction k with
      | zero => intro start; rfl
      | succ m ih =>
          intro start
          simp only [List.replicate, initSlots, List.map_cons, ih (start + 1)]
          rfl
    exact aux n 0

/-- C2: for every non-short-circuit opcode and every combination of
per-record successes and failures, the recombined batch keeps its slots
in the original input order, each slot holding the record's own
single-record result (lhs error, rhs error, or combined value). -/
theorem c2_batch_preserves_order (σ : Type) (o : Op σ) (states : List σ)
    (h : o.opcode.isShortCircuit = false) :
    o.resolveBatch (initSlots 0 states) = (initSlots 0 states).map (runSlot o.resolve)
    ∧ (o.resolveBatch (initSlots 0 states)).map Slot.idx = List.range' 0 states.length := by
  have he := resolveBatch_eq_map o _ (initSlots_pairwise 0 states)
  refine ⟨he, ?_⟩
  rw [he, List.map_map]
  have hcomp : Slot.idx ∘ runSlot o.resolve = (Slot.idx : Slot σ → Nat) := rfl
  rw [hcomp, initSlots_map_idx]

/-- Lhs sub-expression of the concrete Add batch example: yields the
record value as an integer, failing on the record whose state is 1. -/
def exAddLhs : Expr Int :=
  ⟨fun s => (if s = 1 then .error ("lhs failed") else .ok (.integer s), s),
   ⟨Kind.integer, true⟩, none, none⟩

/-- Rhs sub-expression of the concrete Add batch example: the constant
integer 10. -/
def exAddRhs : Expr Int :=
  ⟨fun s => (.ok (.integer 10), s), TypeDef.integer, some (.integer 10), none⟩

/-- The concrete 3-record Add example: record 1's lhs fails, records 0
and 2 add their value to 10. -/
def exAddOp : Op Int := ⟨exAddLhs, exAddRhs, .add⟩

theorem c2_batch_preserves_order_witness :
    exAddOp.opcode.isShortCircuit = false
    ∧ (exAddOp.resolveBatch (initSlots 0 ([0, 1, 2] : List Int))
          = (initSlots 0 ([0, 1, 2] : List Int)).map (runSlot exAddOp.resolve)
        ∧ (exAddOp.resolveBatch (initSlots 0 ([0, 1, 2] : List Int))).map Slot.idx
            = List.range' 0 ([0, 1, 2] : List Int).length)
    ∧ exAddOp.resolveBatch (initSlots 0 ([0, 1, 2] : List Int))
        = [⟨0, .ok (.integer 10), 0⟩, ⟨1, .error ("lhs failed"), 1⟩,
           ⟨2, .ok (.integer 12), 2⟩] :=
  ⟨rfl, c2_batch_preserves_order Int exAddOp [0, 1, 2] rfl, by decide⟩

/-- C9: for every non-short-circuit opcode, `resolve` evaluates lhs
first; an lhs error is returned unchanged, and the result does not
depend on the rhs sub-expression at all. -/
theorem c9_non_short_circuit_lhs_error (σ : Type) (o : Op σ)
    (h : o.opcode.isShortCircuit = false) (s : σ) (e : String) (s1 : σ)
    (hl : o.lhs.resolve s = (.error e, s1)) :
    o.resolve s = (.error e, s1)
    ∧ ∀ rhsE : Expr σ, (Op.mk o.lhs rhsE o.opcode).resolve s = (.error e, s1) := by
  cases hop : o.opcode <;>
    first
      | exact absurd h (by rw [hop]; decide)
      | (refine ⟨?_, fun rhsE => ?_⟩ <;>
          simp [Op.resolve, Op.resolveTail, hop, hl])

/-- Lhs sub-expression of the concrete failing example for C9: always
fails. -/
def exFailLhs : Expr Unit :=
  ⟨fun s => (.error ("boom"), s), ⟨Kind.integer, true⟩, none, none⟩

/-- Rhs sub-expression of the concrete failing example for C9. -/
def exSevenRhs : Expr Unit :=
  ⟨fun s => (.ok (.integer 7), s), TypeDef.integer, none, none⟩

/-- Concrete Mul node whose lhs always fails. -/
def exMulFailOp : Op Unit := ⟨exFailLhs, exSevenRhs, .mul⟩

theorem c9_non_short_circuit_lhs_error_witness :
    exMulFailOp.opcode.isShortCircuit = false
    ∧ exMulFailOp.lhs.resolve () = (.error ("boom"), ())
    ∧ (exMulFailOp.resolve () = (.error ("boom"), ())
        ∧ ∀ rhsE : Expr Unit,
            (Op.mk exMulFailOp.lhs rhsE exMulFailOp.opcode).resolve () = (.error ("boom"), ())) :=
  ⟨rfl, rfl, c9_non_short_circuit_lhs_error Unit exMulFailOp rfl () ("boom") () rfl⟩

/-- C6: `resolve` of an Or node propagates an lhs failure immediately
without consulting rhs; on lhs success it returns rhs's result exactly
when the lhs value is Null or boolean false, and otherwise returns the
lhs value unchanged, again without consulting rhs. -/
theorem c6_or_resolve (σ : Type) (o : Op σ) (h : o.opcode = .or) (s : σ) :
    (∀ e s1, o.lhs.resolve s = (.error e, s1) →
      o.resolve s = (.error e, s1)
      ∧ ∀ rhsE : Expr σ, (Op.mk o.lhs rhsE .or).resolve s = (.error e, s1))
    ∧ (∀ v s1, o.lhs.resolve s = (.ok v, s1) →
      (v = Value.null ∨ v = Value.boolean false) → o.resolve s = o.rhs.resolve s1)
    ∧ (∀ v s1, o.lhs.resolve s = (.ok v, s1) →
      v ≠ Value.null → v ≠ Value.boolean false →
      o.resolve s = (.ok v, s1)
      ∧ ∀ rhsE : Expr σ, (Op.mk o.lhs rhsE .or).resolve s = (.ok v, s1)) := by
  refine ⟨?_, ?_, ?_⟩
  · intro e s1 hl
    refine ⟨?_, fun rhsE => ?_⟩ <;> simp [Op.resolve, h, hl]
  · intro v s1 hl hv
    rcases hv with rfl | rfl <;> simp [Op.resolve, h, hl, Value.isNullOrFalse]
  · intro v s1 hl hv1 hv2
    have hnf : v.isNullOrFalse = false := by
      cases v with
      | null => exact absurd rfl hv1
      | boolean b =>
          cases b with
          | false => exact absurd rfl hv2
          | true => rfl
      | _ => rfl
    refine ⟨?_, fun rhsE => ?_⟩ <;> simp [Op.resolve, h, hl, hnf]

/-- Lhs sub-expression of the concrete Or example: the constant boolean
true (truthy, so rhs must never run). -/
def exOrLhs : Expr Unit :=
  ⟨fun s => (.ok (.boolean true), s), ⟨Kind.boolean, false⟩, none, none⟩

/-- Rhs sub-expression of the concrete Or example. -/
def exOrRhs : Expr Unit :=
  ⟨fun s => (.ok (.integer 7), s), TypeDef.integer, none, none⟩

/-- Concrete Or node for the C6 witness. -/
def exOrOp : Op Unit := ⟨exOrLhs, exOrRhs, .or⟩

theorem c6_or_resolve_witness :
    exOrOp.opcode = Opcode.or
    ∧ ((∀ e s1, exOrOp.lhs.resolve () = (.error e, s1) →
        exOrOp.resolve () = (.error e, s1)
        ∧ ∀ rhsE : Expr Unit, (Op.mk exOrOp.lhs rhsE .or).resolve () = (.error e, s1))
      ∧ (∀ v s1, exOrOp.lhs.resolve () = (.ok v, s1) →
        (v = Value.null ∨ v = Value.boolean false) →
        exOrOp.resolve () = exOrOp.rhs.resolve s1)
      ∧ (∀ v s1, exOrOp.lhs.resolve () = (.ok v, s1) →
        v ≠ Value.null → v ≠ Value.boolean false →
        exOrOp.resolve () = (.ok v, s1)
        ∧ ∀ rhsE : Expr Unit, (Op.mk exOrOp.lhs rhsE .or).resolve () = (.ok v, s1))) :=
  ⟨rfl, c6_or_resolve Unit exOrOp rfl ()⟩

/-- C10: the three construction errors expose the fixed diagnostic codes
650, 651 and 652, and the wrapped expression-error variant forwards the
inner error's code, message, labels and notes unchanged. -/
theorem c10_diagnostic_codes :
    (∀ s, (Op.Error.chainedComparison s).code = 650)
    ∧ (∀ a b c, (Op.Error.unnecessaryCoalesce a b c).code = 651)
    ∧ (∀ a b, (Op.Error.mergeNonObjects a b).code = 652)
    ∧ ∀ e : ExprError,
        (Op.Error.expr e).code = e.code
        ∧ (Op.Error.expr e).message = e.message
        ∧ (Op.Error.expr e).labels = e.labels
        ∧ (Op.Error.expr e).notes = e.notes :=
  ⟨fun _ => rfl, fun _ _ _ => rfl, fun _ _ => rfl, fun _ => ⟨rfl, rfl, rfl, rfl⟩⟩

/-- C3 (amended): `type_def` of a Div node always has kind Float, and it
is infallible exactly when the rhs is a compile-time literal nonzero
integer or a literal normal float, and the lhs's inferred kind set is
exactly Integer or exactly Float (not merely contained in the union of
the two). -/
theorem c3_div_type_def (σ : Type) (o : Op σ) (h : o.opcode = .div) :
    (o.typeDef).kind = Kind.float
    ∧ ((o.typeDef).fallible = false ↔
        ((∃ b, o.rhs.asValue = some (.float b) ∧ b = true)
          ∨ (∃ n, o.rhs.asValue = some (.integer n) ∧ n ≠ 0))
        ∧ (o.lhs.typeDef.is_float = true ∨ o.lhs.typeDef.is_integer = true)) := by
  rcases hval : o.rhs.asValue with _ | val
  · simp [Op.typeDef, h, hval, TypeDef.float, TypeDef.fallible']
  · cases hg : (o.lhs.typeDef.is_float || o.lhs.typeDef.is_integer) with
    | false =>
        rw [Bool.or_eq_false_iff] at hg
        cases val <;>
          simp [Op.typeDef, h, hval, hg.1, hg.2, TypeDef.float, TypeDef.fallible']
    | true =>
        have hg' : (o.lhs.typeDef.is_float = true ∨ o.lhs.typeDef.is_integer = true) := by
          rcases Bool.or_eq_true_iff.mp hg with h1 | h1
          · exact Or.inl h1
          · exact Or.inr h1
        cases val with
        | float b =>
            cases b <;>
              simp [Op.typeDef, h, hval, hg, hg', TypeDef.float, TypeDef.fallible',
                TypeDef.infallible]
        | integer n =>
            by_cases hn : n = 0
            · subst hn
              simp [Op.typeDef, h, hval, hg, TypeDef.float, TypeDef.fallible']
            · simp [Op.typeDef, h, hval, hg, hg', hn, TypeDef.float, TypeDef.fallible',
                TypeDef.infallible]
        | null =>
            simp [Op.typeDef, h, hval, hg, TypeDef.float, TypeDef.fallible']
        | boolean b =>
            simp [Op.typeDef, h, hval, hg, TypeDef.float, TypeDef.fallible']
        | bytes s =>
            simp [Op.typeDef, h, hval, hg, TypeDef.float, TypeDef.fallible']
        | object fields =>
            simp [Op.typeDef, h, hval, hg, TypeDef.float, TypeDef.fallible']

/-- Lhs expression whose statically inferred kind set is the two-element
set containing Integer and Float. -/
def exNumUnionLhs : Expr Unit :=
  ⟨fun s => (.ok (.integer 1), s), ⟨Kind.integer.or_float, false⟩, none, none⟩

/-- Rhs expression that is a compile-time literal nonzero integer. -/
def exLitOneRhs : Expr Unit :=
  ⟨fun s => (.ok (.integer 1), s), TypeDef.integer, some (.integer 1), none⟩

/-- Div node whose lhs kind set is contained in, but not equal to one of,
the numeric singletons. -/
def c3CexOp : Op Unit := ⟨exNumUnionLhs, exLitOneRhs, .div⟩

/-- C3 counterexample: the rhs is a literal nonzero integer and the lhs
kind set is contained in the union of Integer and Float, so the claim as
stated requires an infallible result; the code yields a fallible one
because the guard checks that the lhs is exactly Float or exactly
Integer. -/
theorem c3_div_counterexample :
    c3CexOp.opcode = Opcode.div
    ∧ c3CexOp.rhs.asValue = some (Value.integer 1)
    ∧ (1 : Int) ≠ 0
    ∧ Kind.subset c3CexOp.lhs.typeDef.kind (Kind.integer.or_float) = true
    ∧ c3CexOp.typeDef.fallible = true := by
  refine ⟨rfl, rfl, by decide, by decide, by decide⟩

/-- Div node with an exactly-Integer lhs and a literal nonzero integer
rhs. -/
def c3WitOp : Op Unit :=
  ⟨⟨fun s => (.ok (.integer 4), s), TypeDef.integer, none, none⟩, exLitOneRhs, .div⟩

theorem c3_div_type_def_witness :
    c3WitOp.opcode = Opcode.div
    ∧ ((c3WitOp.typeDef).kind = Kind.float
      ∧ ((c3WitOp.typeDef).fallible = false ↔
          ((∃ b, c3WitOp.rhs.asValue = some (.float b) ∧ b = true)
            ∨ (∃ n, c3WitOp.rhs.asValue = some (.integer n) ∧ n ≠ 0))
          ∧ (c3WitOp.lhs.typeDef.is_float = true ∨ c3WitOp.lhs.typeDef.is_integer = true))) :=
  ⟨rfl, c3_div_type_def Unit c3WitOp rfl⟩

/-- C4 (amended): `type_def` of a Rem node follows the literal-aware
table (normal-float rhs gives Float infallible, non-normal-float rhs
Float fallible, nonzero-integer rhs Integer infallible, zero-integer rhs
Integer fallible) only when the lhs kind set is exactly Integer or
exactly Float; with no literal rhs, a non-numeric lhs, or a literal rhs
of any other kind it yields the union of Integer and Float, fallible. -/
theorem c4_rem_type_def (σ : Type) (o : Op σ) (h : o.opcode = .rem) :
    (∀ b, o.rhs.asValue = some (.float b) →
      (o.lhs.typeDef.is_float || o.lhs.typeDef.is_integer) = true →
      o.typeDef = if b then TypeDef.float.infallible else TypeDef.float.fallible')
    ∧ (∀ n, o.rhs.asValue = some (.integer n) →
      (o.lhs.typeDef.is_float || o.lhs.typeDef.is_integer) = true →
      o.typeDef = if n ≠ 0 then TypeDef.integer.infallible else TypeDef.integer.fallible')
    ∧ (o.rhs.asValue = none → o.typeDef = TypeDef.float.add_integer.fallible')
    ∧ ((o.lhs.typeDef.is_float || o.lhs.typeDef.is_integer) = false →
      o.typeDef = TypeDef.float.add_integer.fallible')
    ∧ (∀ v, o.rhs.asValue = some v →
      (∀ b, v ≠ Value.float b) → (∀ n, v ≠ Value.integer n) →
      o.typeDef = TypeDef.float.add_integer.fallible') := by
  refine ⟨?_, ?_, ?_, ?_, ?_⟩
  · intro b hval hg
    simp [Op.typeDef, h, hval, hg]
  · intro n hval hg
    simp [Op.typeDef, h, hval, hg]
  · intro hval
    simp [Op.typeDef, h, hval]
  · intro hg
    rcases hval : o.rhs.asValue with _ | val
    · simp [Op.typeDef, h, hval]
    · cases val <;> simp [Op.typeDef, h, hval, hg]
  · intro v hval hvf hvi
    cases hg : (o.lhs.typeDef.is_float || o.lhs.typeDef.is_integer) with
    | false => cases v <;> simp [Op.typeDef, h, hval, hg]
    | true =>
        cases v with
        | float b => exact absurd rfl (hvf b)
        | integer n => exact absurd rfl (hvi n)
        | _ => simp [Op.typeDef, h, hval, hg]

/-- Lhs expression whose statically inferred kind set is exactly Bytes. -/
def exBytesLhs : Expr Unit :=
  ⟨fun s => (.ok (.bytes ("x")), s), ⟨Kind.bytes, false⟩, none, none⟩

/-- Rem node whose rhs is a literal nonzero integer but whose lhs is not
numerically typed. -/
def c4CexOp : Op Unit := ⟨exBytesLhs, exLitOneRhs, .rem⟩

/-- C4 counterexample: the rhs is a literal nonzero integer, so the claim
as stated requires Integer/infallible; the code yields the fallible
union of Integer and Float because the lhs kind set is not exactly
Integer or exactly Float. -/
theorem c4_rem_counterexample :
    c4CexOp.opcode = Opcode.rem
    ∧ c4CexOp.rhs.asValue = some (Value.integer 1)
    ∧ (1 : Int) ≠ 0
    ∧ c4CexOp.typeDef ≠ TypeDef.integer
    ∧ c4CexOp.typeDef = TypeDef.float.add_integer.fallible' := by
  refine ⟨rfl, rfl, by decide, by decide, by decide⟩

/-- Rem node with an exactly-Integer lhs and a literal nonzero integer
rhs. -/
def c4WitOp : Op Unit :=
  ⟨⟨fun s => (.ok (.integer 4), s), TypeDef.integer, none, none⟩, exLitOneRhs, .rem⟩

theorem c4_rem_type_def_witness :
    c4WitOp.opcode = Opcode.rem
    ∧ ((∀ b, c4WitOp.rhs.asValue = some (.float b) →
        (c4WitOp.lhs.typeDef.is_float || c4WitOp.lhs.typeDef.is_integer) = true →
        c4WitOp.typeDef = if b then TypeDef.float.infallible else TypeDef.float.fallible')
      ∧ (∀ n, c4WitOp.rhs.asValue = some (.integer n) →
        (c4WitOp.lhs.typeDef.is_float || c4WitOp.lhs.typeDef.is_integer) = true →
        c4WitOp.typeDef = if n ≠ 0 then TypeDef.integer.infallible else TypeDef.integer.fallible')
      ∧ (c4WitOp.rhs.asValue = none → c4WitOp.typeDef = TypeDef.float.add_integer.fallible')
      ∧ ((c4WitOp.lhs.typeDef.is_float || c4WitOp.lhs.typeDef.is_integer) = false →
        c4WitOp.typeDef = TypeDef.float.add_integer.fallible')
      ∧ (∀ v, c4WitOp.rhs.asValue = some v →
        (∀ b, v ≠ Value.float b) → (∀ n, v ≠ Value.integer n) →
        c4WitOp.typeDef = TypeDef.float.add_integer.fallible')) :=
  ⟨rfl, c4_rem_type_def Unit c4WitOp rfl⟩

/-- C5 (amended): whenever the opcode is one of the six comparison
opcodes and the lhs is itself a binary-operator node whose opcode is
also a comparison, `Op::new` fails with a ChainedComparison error; the
error carries the span of the operator node being constructed (the
outer comparison operator), not the span of the inner comparison. -/
theorem c5_chained_comparison_error (σ : Type) (lhs : Node (Expr σ)) (opc : Node Opcode)
    (rhs : Node (Expr σ)) (h1 : opc.val.isComparison = true) (inner : Opcode)
    (h2 : lhs.val.opOpcode = some inner) (h3 : inner.isComparison = true) :
    Op.new σ lhs opc rhs = .error (.chainedComparison opc.span) := by
  simp [Op.new, h1, h2, h3]

/-- Inner node of the chained-comparison example, standing for `a < b`:
a binary-operator node with opcode Lt.  Its expression span is 0-5
while the outer operator token's span is 6-7. -/
def c5InnerExpr : Expr Unit :=
  ⟨fun s => (.ok (.boolean true), s), ⟨Kind.boolean, false⟩, none, some .lt⟩

/-- Node for the inner comparison `a < b`, spanning 0-5. -/
def c5LhsNode : Node (Expr Unit) := ⟨⟨0, 5⟩, c5InnerExpr⟩

/-- Node for the outer `<` operator token, spanning 6-7. -/
def c5OpNode : Node Opcode := ⟨⟨6, 7⟩, .lt⟩

/-- Node for the rhs `c`, spanning 8-9. -/
def c5RhsNode : Node (Expr Unit) :=
  ⟨⟨8, 9⟩, ⟨fun s => (.ok (.integer 3), s), TypeDef.integer, none, none⟩⟩

/-- C5 counterexample: on `a < b < c` construction does fail with
ChainedComparison, but the error's span is the span of the outer
operator node passed to `Op::new`, which differs from the span of the
inner comparison `a < b` claimed by the spec. -/
theorem c5_chained_comparison_counterexample :
    Op.new Unit c5LhsNode c5OpNode c5RhsNode
      = .error (.chainedComparison c5OpNode.span)
    ∧ c5OpNode.span ≠ c5LhsNode.span := by
  exact ⟨rfl, by decide⟩

theorem c5_chained_comparison_error_witness :
    c5OpNode.val.isComparison = true
    ∧ c5LhsNode.val.opOpcode = some Opcode.lt
    ∧ Opcode.lt.isComparison = true
    ∧ Op.new Unit c5LhsNode c5OpNode c5RhsNode = .error (.chainedComparison c5OpNode.span) :=
  ⟨rfl, rfl, rfl,
    c5_chained_comparison_error Unit c5LhsNode c5OpNode c5RhsNode rfl .lt rfl rfl⟩

/-- C7: when the opcode is Merge, `Op::new` fails with a MergeNonObjects
error exactly when either operand's inferred kind set is not exactly
Object, and the error carries a span only for each side that is not
Object-typed. -/
theorem c7_merge_non_objects (σ : Type) (lhs : Node (Expr σ)) (opc : Node Opcode)
    (rhs : Node (Expr σ)) (h : opc.val = .merge) :
    Op.new σ lhs opc rhs =
      (if lhs.val.typeDef.is_object && rhs.val.typeDef.is_object then
        .ok ⟨lhs.val, rhs.val, opc.val⟩
      else
        .error (.mergeNonObjects
          (if lhs.val.typeDef.is_object then none else some lhs.span)
          (if rhs.val.typeDef.is_object then none else some rhs.span))) := by
  simp [Op.new, h, Opcode.isComparison]

/-- Lhs node of the merge example: an integer-typed expression spanning
0-1. -/
def c7LhsNode : Node (Expr Unit) :=
  ⟨⟨0, 1⟩, ⟨fun s => (.ok (.integer 1), s), TypeDef.integer, none, none⟩⟩

/-- Node for the `|` operator token, spanning 2-3. -/
def c7OpNode : Node Opcode := ⟨⟨2, 3⟩, .merge⟩

/-- Rhs node of the merge example: an integer-typed expression spanning
4-5. -/
def c7RhsNode : Node (Expr Unit) :=
  ⟨⟨4, 5⟩, ⟨fun s => (.ok (.integer 2), s), TypeDef.integer, none, none⟩⟩

theorem c7_merge_non_objects_witness :
    c7OpNode.val = Opcode.merge
    ∧ Op.new Unit c7LhsNode c7OpNode c7RhsNode
        = .error (.mergeNonObjects (some c7LhsNode.span) (some c7RhsNode.span)) :=
  ⟨rfl, by rw [c7_merge_non_objects Unit c7LhsNode c7OpNode c7RhsNode rfl]; rfl⟩

/-- C8: when the opcode is Err, `Op::new` fails with an
UnnecessaryCoalesce error carrying the lhs, rhs and operator spans
exactly when the lhs's inferred TypeDef is infallible; it is
construction of the node that fails, not evaluation. -/
theorem c8_unnecessary_coalesce (σ : Type) (lhs : Node (Expr σ)) (opc : Node Opcode)
    (rhs : Node (Expr σ)) (h : opc.val = .err) :
    Op.new σ lhs opc rhs =
      (if lhs.val.typeDef.is_infallible then
        .error (.unnecessaryCoalesce lhs.span rhs.span opc.span)
      else .ok ⟨lhs.val, rhs.val, opc.val⟩) := by
  simp [Op.new, h, Opcode.isComparison]

/-- Lhs node of the coalesce example: an infallible integer-typed
expression spanning 0-1. -/
def c8LhsNode : Node (Expr Unit) :=
  ⟨⟨0, 1⟩, ⟨fun s => (.ok (.integer 1), s), TypeDef.integer, none, none⟩⟩

/-- Node for the `??` operator token, spanning 2-4. -/
def c8OpNode : Node Opcode := ⟨⟨2, 4⟩, .err⟩

/-- Rhs node of the coalesce example, spanning 5-6. -/
def c8RhsNode : Node (Expr Unit) :=
  ⟨⟨5, 6⟩, ⟨fun s => (.ok (.integer 2), s), TypeDef.integer, none, none⟩⟩

theorem c8_unnecessary_coalesce_witness :
    c8OpNode.val = Opcode.err
    ∧ c8LhsNode.val.typeDef.is_infallible = true
    ∧ Op.new Unit c8LhsNode c8OpNode c8RhsNode
        = .error (.unnecessaryCoalesce c8LhsNode.span c8RhsNode.span c8OpNode.span) :=
  ⟨rfl, rfl, by rw [c8_unnecessary_coalesce Unit c8LhsNode c8OpNode c8RhsNode rfl]; rfl⟩
